import Mathlib

/-!
Shallow embedding of the `agent-browser` BrowserAgent core: the Action
Dispatcher (`executeTool`), the Orchestration Loop (`execute`), the
stream-consuming variant of `execute` from `src/browser-agent.ts`
(`sdkExecute`), the SDK scroll tool handler (`scrollHandler`), and the
daemon `do` command handler (`handleDo`).

Browser-session calls are modelled as pure functions returning
`Except String _` (an `error` models a thrown exception whose message is
the payload); the browser calls actually issued are recorded as an
explicit effect trace, and model-service invocations are counted in the
trace as well, so that claims about "which actions were executed" and
"how many model calls were made" are expressible.
-/

/-- Result value returned to the caller of `execute`. -/
structure AgentResult where
  success : Bool
  summary : String
  turns : Nat
deriving DecidableEq, Repr

/-- Per-instruction configuration (`Required<AgentConfig>`). -/
structure AgentConfig where
  model : String
  maxTurns : Nat
  timeout : Nat
deriving DecidableEq, Repr

/-- The (optional) named arguments a tool invocation may carry; an absent
field models a JavaScript `undefined`. -/
structure ToolArgs where
  fullPage : Option Bool := none
  target : Option String := none
  value : Option String := none
  text : Option String := none
  key : Option String := none
  direction : Option String := none
  amount : Option Int := none
  ms : Option Int := none
  selector : Option String := none
  success : Option Bool := none
  summary : Option String := none
deriving DecidableEq, Repr

/-- JavaScript `a || d` on an optional number: `undefined` and `0` are falsy. -/
def jsOrInt (o : Option Int) (d : Int) : Int :=
  match o with
  | some x => if x = 0 then d else x
  | none => d

/-- JavaScript `a || d` on an optional string: `undefined` and `""` are falsy. -/
def jsOrStr (o : Option String) (d : String) : String :=
  match o with
  | some s => if s = "" then d else s
  | none => d

/-- JavaScript `s || d` on a string: `""` is falsy. -/
def jsOrS (s d : String) : String :=
  if s = "" then d else s

/-- JavaScript truthiness of an optional number (`if (args.ms)`). -/
def truthyInt (o : Option Int) : Bool :=
  match o with
  | some x => x != 0
  | none => false

/-- JavaScript truthiness of an optional string (`if (args.selector)`). -/
def truthyStr (o : Option String) : Bool :=
  match o with
  | some s => s != ""
  | none => false

/-- One call issued against the browser-session interface. -/
inductive BrowserEffect where
  | snapshot (interactive : Bool)
  | click (target : String)
  | fill (target value : String)
  | typeText (target text : String)
  | press (key : String)
  | scroll (direction : String) (amount : Int)
  | waitMs (ms : Int)
  | waitForSelector (selector : String)
deriving DecidableEq, Repr

/-- The browser-session interface consumed by the dispatcher.  Each
operation is a pure function of its arguments ("unchanged page"); an
`Except.error m` models the operation throwing an exception with
message `m`. -/
structure Browser where
  snapshot : Bool → Except String String
  click : String → Except String Unit
  fill : String → String → Except String Unit
  typeText : String → String → Except String Unit
  press : String → Except String Unit
  scroll : String → Int → Except String Unit
  waitForSelector : String → Except String Unit

/-- Body of the dispatcher's `try` block: the `switch` over tool names in
`executeTool` of the plan's `browser-agent.ts`.  Returns the raw outcome
(observation text, or the uncaught error) together with the browser calls
issued. -/
def executeToolBody (b : Browser) (name : String) (args : ToolArgs) :
    Except String String × List BrowserEffect :=
  if name = "snapshot" then
    let interactive := !(args.fullPage.getD false)
    (b.snapshot interactive, [.snapshot interactive])
  else if name = "click" then
    let target := args.target.getD ""
    ((b.click target).map fun _ => "Clicked " ++ target, [.click target])
  else if name = "fill" then
    let target := args.target.getD ""
    let value := args.value.getD ""
    ((b.fill target value).map fun _ =>
        "Filled " ++ target ++ " with \"" ++ value ++ "\"",
      [.fill target value])
  else if name = "type" then
    let target := args.target.getD ""
    let text := args.text.getD ""
    ((b.typeText target text).map fun _ =>
        "Typed \"" ++ text ++ "\" into " ++ target,
      [.typeText target text])
  else if name = "press" then
    let key := args.key.getD ""
    ((b.press key).map fun _ => "Pressed " ++ key, [.press key])
  else if name = "scroll" then
    let direction := args.direction.getD ""
    let amount := jsOrInt args.amount 500
    ((b.scroll direction amount).map fun _ =>
        "Scrolled " ++ direction ++ " " ++ toString amount ++ "px",
      [.scroll direction amount])
  else if name = "wait" then
    if truthyInt args.ms then
      let ms := args.ms.getD 0
      (.ok ("Waited " ++ toString ms ++ "ms"), [.waitMs ms])
    else if truthyStr args.selector then
      let selector := args.selector.getD ""
      ((b.waitForSelector selector).map fun _ =>
          "Element " ++ selector ++ " appeared",
        [.waitForSelector selector])
    else
      (.ok "No wait condition specified", [])
  else
    (.ok ("Unknown tool: " ++ name), [])

/-- The Action Dispatcher: `executeTool` with its `catch` clause.  A
thrown error is converted into the observation `"Error: <message>"`;
nothing is re-raised (the function is total). -/
def executeTool (b : Browser) (name : String) (args : ToolArgs) :
    String × List BrowserEffect :=
  match executeToolBody b name args with
  | (.ok s, effs) => (s, effs)
  | (.error m, effs) => ("Error: " ++ m, effs)

/-- One tool-use block of a model response (`Anthropic.ToolUseBlock`). -/
structure ToolUse where
  id : String
  name : String
  args : ToolArgs
deriving DecidableEq, Repr

/-- One content block of a model response. -/
inductive ContentBlock where
  | text (s : String)
  | toolUse (u : ToolUse)
deriving DecidableEq, Repr

/-- `response.content.filter(block => block.type === 'tool_use')`. -/
def toolUsesOf (content : List ContentBlock) : List ToolUse :=
  content.filterMap fun b =>
    match b with
    | .toolUse u => some u
    | .text _ => none

/-- `response.content.find(block => block.type === 'text')`, projected to
its text. -/
def firstTextOf (content : List ContentBlock) : Option String :=
  (content.filterMap fun b =>
    match b with
    | .text s => some s
    | .toolUse _ => none).head?

/-- One entry of the conversation history (`Anthropic.MessageParam`). -/
inductive Message where
  | user (content : String)
  | assistant (content : List ContentBlock)
  | toolResults (results : List (String × String))
deriving DecidableEq, Repr

/-- Instrumentation of the run: how many model-service invocations were
made and which browser calls were issued, in order. -/
structure Trace where
  modelCalls : Nat
  effects : List BrowserEffect
deriving DecidableEq, Repr

/-- The `for (const toolUse of toolUses)` loop of `execute`: dispatch each
tool use in order, returning early (`Sum.inr`) with the payload of the
first `done`; otherwise (`Sum.inl`) the collected tool results.  Either
way the browser effects issued so far are carried along. -/
def processBatch (b : Browser) :
    List ToolUse → List (String × String) → List BrowserEffect →
    (List (String × String) × List BrowserEffect) ⊕ (Bool × String × List BrowserEffect)
  | [], results, effs => .inl (results, effs)
  | u :: rest, results, effs =>
    if u.name = "done" then
      .inr (u.args.success.getD false, u.args.summary.getD "", effs)
    else
      let r := executeTool b u.name u.args
      processBatch b rest (results ++ [(u.id, r.1)]) (effs ++ r.2)

/-- The `while (turns < this.config.maxTurns)` loop of the plan's
`execute`, with `fuel = maxTurns - turns` made explicit.  `client` is the
model-invocation primitive (`this.client.messages.create`); its
`Except.error` models a thrown model-service error, which `execute` does
not catch, so it propagates in the first component.  The trace is
returned in every case. -/
def executeLoop (client : List Message → Except String (List ContentBlock))
    (b : Browser) (cfg : AgentConfig) :
    List Message → Nat → Nat → Trace → Except String AgentResult × Trace
  | _msgs, turns, 0, tr =>
    (.ok { success := false,
           summary := "Task incomplete after " ++ toString cfg.maxTurns ++ " turns",
           turns := turns }, tr)
  | msgs, turns, fuel + 1, tr =>
    let turns' := turns + 1
    let tr' : Trace := { tr with modelCalls := tr.modelCalls + 1 }
    match client msgs with
    | .error e => (.error e, tr')
    | .ok content =>
      let toolUses := toolUsesOf content
      if toolUses.isEmpty then
        (.ok { success := true,
               summary := jsOrStr (firstTextOf content) "Completed",
               turns := turns' }, tr')
      else
        match processBatch b toolUses [] [] with
        | .inr (s, m, effs) =>
          (.ok { success := s, summary := m, turns := turns' },
            { tr' with effects := tr'.effects ++ effs })
        | .inl (results, effs) =>
          executeLoop client b cfg
            (msgs ++ [.assistant content, .toolResults results])
            turns' fuel { tr' with effects := tr'.effects ++ effs }

/-- `BrowserAgent.execute(instruction)` from the plan's
`browser-agent.ts`: run the turn loop starting from the conversation
`[{role:'user', content: instruction}]` with `turns = 0`. -/
def execute (client : List Message → Except String (List ContentBlock))
    (b : Browser) (cfg : AgentConfig) (instruction : String) :
    Except String AgentResult × Trace :=
  executeLoop client b cfg [.user instruction] 0 cfg.maxTurns ⟨0, []⟩

/-- One content block of an assistant message in the SDK message stream
(`src/browser-agent.ts`). -/
inductive SdkBlock where
  | text (s : String)
  | other
deriving DecidableEq, Repr

/-- One message of the SDK stream consumed by the `for await` loop in
`src/browser-agent.ts`: assistant turns, the final result message
(`subtype`, `result`, `num_turns`, optional `errors`), or anything else. -/
inductive SdkMessage where
  | assistant (content : List SdkBlock)
  | result (subtype : String) (res : Option String) (numTurns : Nat)
      (errors : Option (List String))
  | other
deriving DecidableEq, Repr

/-- The text payloads of an assistant message's content blocks. -/
def sdkTextsOf (content : List SdkBlock) : List String :=
  content.filterMap fun b =>
    match b with
    | .text s => some s
    | .other => none

/-- The `for await (const message of result)` loop of
`src/browser-agent.ts` `execute`, inside its `try`.  `exc` is the error
message the stream throws after yielding the listed messages (`none` if
it completes normally); the surrounding `catch` turns that throw into
`{success:false, summary:"Error: <message>", turns}`. -/
def runStream (exc : Option String) :
    List SdkMessage → Nat → String → AgentResult
  | [], turns, lastMsg =>
    match exc with
    | some err => { success := false, summary := "Error: " ++ err, turns := turns }
    | none => { success := true, summary := jsOrS lastMsg "Completed", turns := turns }
  | m :: rest, turns, lastMsg =>
    match m with
    | .assistant content =>
      let texts := sdkTextsOf content
      let lastMsg' := if texts.isEmpty then lastMsg else String.intercalate "\n" texts
      runStream exc rest (turns + 1) lastMsg'
    | .result subtype res numTurns errors =>
      if subtype = "success" then
        { success := true,
          summary := jsOrStr res (jsOrS lastMsg "Completed"),
          turns := numTurns }
      else
        { success := false,
          summary :=
            match errors with
            | some es => String.intercalate ", " es
            | none => "Unknown error",
          turns := numTurns }
    | .other => runStream exc rest turns lastMsg

/-- `BrowserAgent.execute` from `src/browser-agent.ts`: consume the
stream produced by `query(...)` for the given instruction, starting with
`turns = 0` and `lastAssistantMessage = ''`.  The stream (messages plus
an optional terminal throw) stands for everything `query` yields. -/
def sdkExecute (stream : List SdkMessage) (exc : Option String)
    (_instruction : String) : AgentResult :=
  runStream exc stream 0 ""

/-- The `switch (args.direction)` of the `browser_scroll` handler in
`src/browser-agent.ts`: both deltas start at 0 and the matching case
assigns one of them. -/
def scrollDeltas (direction : String) (amount : Int) : Int × Int :=
  if direction = "up" then (0, -amount)
  else if direction = "down" then (0, amount)
  else if direction = "left" then (-amount, 0)
  else if direction = "right" then (amount, 0)
  else (0, 0)

/-- The `browser_scroll` tool handler of `src/browser-agent.ts`: resolve
the effective amount with `args.amount || 500`, derive the signed deltas
passed to `window.scrollBy(deltaX, deltaY)`, and produce the confirmation
text. -/
def scrollHandler (direction : String) (amount : Option Int) :
    (Int × Int) × String :=
  let a := jsOrInt amount 500
  (scrollDeltas direction a,
    "Scrolled " ++ direction ++ " " ++ toString a ++ "px")

/-- The `do` command received by the daemon; `instruction = none` models
a missing or non-string instruction field. -/
structure DoCommand where
  instruction : Option String
deriving DecidableEq, Repr

/-- The daemon's reply to a `do` command. -/
structure DaemonResponse where
  success : Bool
  error : Option String
  data : Option (String × Nat)
deriving DecidableEq, Repr

/-- The `case 'do':` handler added to the daemon (plan Step 4): reject a
missing or empty instruction before constructing the agent, otherwise run
`agent.execute` inside a `try`/`catch`.  The trace of the `execute` call
is returned alongside (⟨0, []⟩ when `execute` was never entered). -/
def handleDo (client : List Message → Except String (List ContentBlock))
    (b : Browser) (cmd : DoCommand) (config : AgentConfig) :
    DaemonResponse × Trace :=
  match cmd.instruction with
  | none => ({ success := false, error := some "Missing instruction", data := none }, ⟨0, []⟩)
  | some instr =>
    if instr = "" then
      ({ success := false, error := some "Missing instruction", data := none }, ⟨0, []⟩)
    else
      match execute client b config instr with
      | (.ok r, tr) =>
        ({ success := r.success, error := none, data := some (r.summary, r.turns) }, tr)
      | (.error m, tr) =>
        ({ success := false, error := some m, data := none }, tr)

/-- A browser session on which every operation succeeds. -/
def okBrowser : Browser where
  snapshot := fun interactive =>
    .ok (if interactive then "- button \"OK\" @e1" else "- main\n  - button \"OK\" @e1")
  click := fun _ => .ok ()
  fill := fun _ _ => .ok ()
  typeText := fun _ _ => .ok ()
  press := fun _ => .ok ()
  scroll := fun _ _ => .ok ()
  waitForSelector := fun _ => .ok ()

/-- A browser session on which every operation throws. -/
def failBrowser : Browser where
  snapshot := fun _ => .error "page closed"
  click := fun _ => .error "no element matching @missing"
  fill := fun _ _ => .error "no element matching @missing"
  typeText := fun _ _ => .error "no element matching @missing"
  press := fun _ => .error "keyboard detached"
  scroll := fun _ _ => .error "page closed"
  waitForSelector := fun _ => .error "timeout"

/-- A model that always answers with free text only. -/
def textClient : List Message → Except String (List ContentBlock) :=
  fun _ => .ok [.text "All done"]

/-- A model whose single turn requests a `click` followed by `done`. -/
def doneBatchClient : List Message → Except String (List ContentBlock) :=
  fun _ => .ok
    [.toolUse ⟨"t1", "click", { target := some "@e1" }⟩,
     .toolUse ⟨"t2", "done", { success := some true, summary := some "S" }⟩]

/-- A model that requests a `press` on every turn and never terminates. -/
def pressClient : List Message → Except String (List ContentBlock) :=
  fun _ => .ok [.toolUse ⟨"t1", "press", { key := some "Enter" }⟩]

/-- A model that requests a `click` on a missing element on every turn. -/
def badClickClient : List Message → Except String (List ContentBlock) :=
  fun _ => .ok [.toolUse ⟨"t1", "click", { target := some "@missing" }⟩]

/-- The browser effects issued by dispatching a list of tool uses in
order (none of which is `done`). -/
def batchEffects (b : Browser) (uses : List ToolUse) : List BrowserEffect :=
  (uses.map fun v => (executeTool b v.name v.args).2).flatten

/-- Whether an SDK stream message is the final `result` message. -/
def isResultMsg : SdkMessage → Bool
  | .result _ _ _ _ => true
  | _ => false

/-- How many assistant messages a stream contains (the value of `turns`
after the whole stream is consumed). -/
def sdkAssistantCount (msgs : List SdkMessage) : Nat :=
  (msgs.filter fun m =>
    match m with
    | .assistant _ => true
    | _ => false).length

/-- Dispatching a batch that contains no `done` signal runs every tool
use in order and collects all results and effects. -/
theorem processBatch_of_noDone (b : Browser) :
    ∀ (uses : List ToolUse) (results : List (String × String)) (effs : List BrowserEffect),
      (∀ u ∈ uses, u.name ≠ "done") →
      processBatch b uses results effs =
        .inl (results ++ uses.map (fun v => (v.id, (executeTool b v.name v.args).1)),
              effs ++ batchEffects b uses) := by
  intro uses
  induction uses with
  | nil => intro results effs _; simp [processBatch, batchEffects]
  | cons u rest ih =>
    intro results effs h
    have hu : u.name ≠ "done" := h u (by simp)
    have hrest : ∀ v ∈ rest, v.name ≠ "done" := fun v hv => h v (by simp [hv])
    simp only [processBatch, if_neg hu]
    rw [ih _ _ hrest]
    simp [batchEffects, List.append_assoc]

/-- Dispatching a batch whose first `done` is preceded by `pre` executes
exactly the actions in `pre` and then returns the `done` payload; nothing
after the `done` signal is executed. -/
theorem processBatch_of_done (b : Browser) :
    ∀ (pre : List ToolUse) (u : ToolUse) (post : List ToolUse)
      (results : List (String × String)) (effs : List BrowserEffect),
      (∀ v ∈ pre, v.name ≠ "done") → u.name = "done" →
      processBatch b (pre ++ u :: post) results effs =
        .inr (u.args.success.getD false, u.args.summary.getD "",
              effs ++ batchEffects b pre) := by
  intro pre
  induction pre with
  | nil =>
    intro u post results effs _ hu
    simp [processBatch, hu, batchEffects]
  | cons v rest ih =>
    intro u post results effs h hu
    have hv : v.name ≠ "done" := h v (by simp)
    have hrest : ∀ w ∈ rest, w.name ≠ "done" := fun w hw => h w (by simp [hw])
    simp only [List.cons_append, processBatch, if_neg hv, List.append_eq]
    rw [ih u post _ _ hrest hu]
    simp [batchEffects, List.append_assoc]

/-- The model-invocation counter never decreases across the turn loop. -/
theorem executeLoop_modelCalls_mono
    (client : List Message → Except String (List ContentBlock))
    (b : Browser) (cfg : AgentConfig) :
    ∀ (fuel : Nat) (msgs : List Message) (turns : Nat) (tr : Trace),
      tr.modelCalls ≤ (executeLoop client b cfg msgs turns fuel tr).2.modelCalls := by
  intro fuel
  induction fuel with
  | zero => intro msgs turns tr; simp [executeLoop]
  | succ f ih =>
    intro msgs turns tr
    simp only [executeLoop]
    cases hc : client msgs with
    | error e => simp
    | ok content =>
      simp only
      cases he : (toolUsesOf content).isEmpty with
      | true => simp [he]
      | false =>
        simp only [he, Bool.false_eq_true, if_false]
        cases hp : processBatch b (toolUsesOf content) [] [] with
        | inl v =>
          obtain ⟨results, effs⟩ := v
          simp only
          refine le_trans (Nat.le_succ _) ?_
          exact ih (msgs ++ [Message.assistant content, Message.toolResults results])
            (turns + 1) ⟨tr.modelCalls + 1, tr.effects ++ effs⟩
        | inr v => obtain ⟨s, m, effs⟩ := v; simp

/-- With at least one turn of budget left, entering the turn loop makes
at least one further model invocation. -/
theorem executeLoop_modelCalls_succ_le
    (client : List Message → Except String (List ContentBlock))
    (b : Browser) (cfg : AgentConfig) :
    ∀ (fuel : Nat) (msgs : List Message) (turns : Nat) (tr : Trace),
      tr.modelCalls + 1 ≤
        (executeLoop client b cfg msgs turns (fuel + 1) tr).2.modelCalls := by
  intro fuel msgs turns tr
  simp only [executeLoop]
  cases hc : client msgs with
  | error e => simp
  | ok content =>
    simp only
    cases he : (toolUsesOf content).isEmpty with
    | true => simp [he]
    | false =>
      simp only [he, Bool.false_eq_true, if_false]
      cases hp : processBatch b (toolUsesOf content) [] [] with
      | inl v =>
        obtain ⟨results, effs⟩ := v
        simp only
        exact executeLoop_modelCalls_mono client b cfg fuel
          (msgs ++ [Message.assistant content, Message.toolResults results])
          (turns + 1) ⟨tr.modelCalls + 1, tr.effects ++ effs⟩
      | inr v => obtain ⟨s, m, effs⟩ := v; simp

/-- Whenever the turn loop produces a result, its turn count is bounded
by the turns already taken plus the remaining budget. -/
theorem executeLoop_turns_le
    (client : List Message → Except String (List ContentBlock))
    (b : Browser) (cfg : AgentConfig) :
    ∀ (fuel : Nat) (msgs : List Message) (turns : Nat) (tr : Trace)
      (r : AgentResult) (tr' : Trace),
      executeLoop client b cfg msgs turns fuel tr = (.ok r, tr') →
      r.turns ≤ turns + fuel := by
  intro fuel
  induction fuel with
  | zero =>
    intro msgs turns tr r tr' h
    simp only [executeLoop, Prod.mk.injEq, Except.ok.injEq] at h
    obtain ⟨h1, _⟩ := h
    simp [← h1]
  | succ f ih =>
    intro msgs turns tr r tr' h
    simp only [executeLoop] at h
    cases hc : client msgs with
    | error e => rw [hc] at h; simp at h
    | ok content =>
      rw [hc] at h
      simp only at h
      cases he : (toolUsesOf content).isEmpty with
      | true =>
        simp only [he, if_true, Prod.mk.injEq, Except.ok.injEq] at h
        obtain ⟨h1, _⟩ := h
        have : r.turns = turns + 1 := by rw [← h1]
        omega
      | false =>
        simp only [he, Bool.false_eq_true, if_false] at h
        cases hp : processBatch b (toolUsesOf content) [] [] with
        | inl v =>
          obtain ⟨results, effs⟩ := v
          rw [hp] at h
          simp only at h
          have := ih _ _ _ _ _ h
          omega
        | inr v =>
          obtain ⟨s, m, effs⟩ := v
          rw [hp] at h
          simp only [Prod.mk.injEq, Except.ok.injEq] at h
          obtain ⟨h1, _⟩ := h
          have : r.turns = turns + 1 := by rw [← h1]
          omega

/-- C1: every error raised by the browser-session interface during the
dispatch of an ActionRequest is caught by the Action Dispatcher and
converted into the Observation `"Error: <message>"` (a string beginning
with `"Error:"`); the dispatcher never re-raises (in the embedding,
`executeTool` is total, consuming the `Except.error` of its body), and
the orchestration loop goes on to a further model invocation after any
non-terminal batch, failing actions included. -/
theorem dispatcher_absorbs_browser_errors :
    (∀ (b : Browser) (nm : String) (args : ToolArgs) (m : String),
        (executeToolBody b nm args).1 = Except.error m →
          (executeTool b nm args).1 = "Error: " ++ m ∧
          ∃ rest, (executeTool b nm args).1 = "Error:" ++ rest) ∧
    (∀ (client : List Message → Except String (List ContentBlock))
        (b : Browser) (cfg : AgentConfig) (msgs : List Message)
        (turns fuel : Nat) (tr : Trace) (content : List ContentBlock),
        client msgs = .ok content →
        toolUsesOf content ≠ [] →
        (∀ u ∈ toolUsesOf content, u.name ≠ "done") →
        tr.modelCalls + 2 ≤
          (executeLoop client b cfg msgs turns (fuel + 2) tr).2.modelCalls) := by
  constructor
  · intro b nm args m h
    rcases hb : executeToolBody b nm args with ⟨r, effs⟩
    rw [hb] at h
    simp only at h
    subst h
    refine ⟨by simp [executeTool, hb], ⟨" " ++ m, ?_⟩⟩
    simp only [executeTool, hb]
    rw [← String.append_assoc]
    rw [show ("Error:" ++ " " : String) = "Error: " from by decide]
  · intro client b cfg msgs turns fuel tr content hc hne hnd
    simp only [executeLoop, hc]
    have he : (toolUsesOf content).isEmpty = false := by
      simp [List.isEmpty_iff, hne]
    simp only [he, Bool.false_eq_true, if_false]
    rw [processBatch_of_noDone b _ [] [] hnd]
    simp only
    exact executeLoop_modelCalls_succ_le client b cfg fuel _ (turns + 1)
      ⟨tr.modelCalls + 1, tr.effects ++ ([] ++ batchEffects b (toolUsesOf content))⟩

/-- Closed instance of C1: a click on a missing element produces the
Observation `"Error: no element matching @missing"`, and with a model
that keeps issuing that failing click and two turns of budget the loop
still reaches a second model invocation. -/
theorem dispatcher_absorbs_browser_errors_witness :
    (executeTool failBrowser "click" { target := some "@x" }).1
        = "Error: no element matching @missing" ∧
    2 ≤ (executeLoop badClickClient failBrowser ⟨"m", 2, 1000⟩
          [Message.user "i"] 0 2 ⟨0, []⟩).2.modelCalls := by
  constructor
  · exact (dispatcher_absorbs_browser_errors.1 failBrowser "click"
      { target := some "@x" } "no element matching @missing" rfl).1
  · exact dispatcher_absorbs_browser_errors.2 badClickClient failBrowser
      ⟨"m", 2, 1000⟩ [Message.user "i"] 0 0 ⟨0, []⟩
      [.toolUse ⟨"t1", "click", { target := some "@missing" }⟩]
      rfl (by decide) (by decide)

/-- C2: for every model, browser, configuration and instruction, a result
returned by `execute` satisfies `0 ≤ turns ≤ maxTurns`. -/
theorem execute_turns_le_maxTurns
    (client : List Message → Except String (List ContentBlock))
    (b : Browser) (cfg : AgentConfig) (instruction : String)
    (r : AgentResult) (tr : Trace)
    (h : execute client b cfg instruction = (.ok r, tr)) :
    0 ≤ r.turns ∧ r.turns ≤ cfg.maxTurns := by
  refine ⟨Nat.zero_le _, ?_⟩
  have h' : executeLoop client b cfg [.user instruction] 0 cfg.maxTurns ⟨0, []⟩
      = (.ok r, tr) := h
  have := executeLoop_turns_le client b cfg cfg.maxTurns
    [.user instruction] 0 ⟨0, []⟩ r tr h'
  omega

/-- Closed instance of C2 at a one-turn text-only run with budget 3. -/
theorem execute_turns_le_maxTurns_witness :
    0 ≤ (AgentResult.mk true "All done" 1).turns ∧
      (AgentResult.mk true "All done" 1).turns ≤ (AgentConfig.mk "m" 3 1000).maxTurns :=
  execute_turns_le_maxTurns textClient okBrowser ⟨"m", 3, 1000⟩ "go"
    ⟨true, "All done", 1⟩ ⟨1, []⟩ rfl

/-- Counterexample to C3 as stated: when the model's batch is
`[click @e1, done(success:true, "S")]`, the run does terminate with the
done payload, but the click that precedes the done signal in the batch
IS dispatched (the effect trace contains it), so it is false that no
other ActionRequest of the batch is executed and that the done signal is
checked before any dispatch. -/
theorem done_batch_prior_action_executed_cex :
    execute doneBatchClient okBrowser ⟨"m", 5, 1000⟩ "i"
        = (.ok ⟨true, "S", 1⟩, ⟨1, [.click "@e1"]⟩) ∧
    BrowserEffect.click "@e1" ∈ [BrowserEffect.click "@e1"] ∧
    ([BrowserEffect.click "@e1"] : List BrowserEffect) ≠ [] :=
  ⟨rfl, by decide, by decide⟩

/-- C3 amended: when a turn's batch splits as `pre ++ done :: post` with
no done signal in `pre`, `execute` terminates on that turn with the done
action's `success` and `summary`; the actions in `pre` are dispatched
first (in order) and nothing after the done signal is executed. -/
theorem done_signal_terminates_after_prior_actions
    (client : List Message → Except String (List ContentBlock))
    (b : Browser) (cfg : AgentConfig) (msgs : List Message)
    (turns fuel : Nat) (tr : Trace) (content : List ContentBlock)
    (pre : List ToolUse) (u : ToolUse) (post : List ToolUse)
    (s : Bool) (sm : String)
    (hc : client msgs = .ok content)
    (hsplit : toolUsesOf content = pre ++ u :: post)
    (hpre : ∀ v ∈ pre, v.name ≠ "done")
    (hu : u.name = "done")
    (hs : u.args.success = some s)
    (hm : u.args.summary = some sm) :
    executeLoop client b cfg msgs turns (fuel + 1) tr =
      (.ok ⟨s, sm, turns + 1⟩,
       ⟨tr.modelCalls + 1, tr.effects ++ batchEffects b pre⟩) := by
  simp only [executeLoop, hc]
  have hne : (toolUsesOf content).isEmpty = false := by
    rw [hsplit]; cases pre <;> simp
  simp only [hne, Bool.false_eq_true, if_false]
  rw [hsplit, processBatch_of_done b pre u post [] [] hpre hu]
  simp [hs, hm]

/-- Closed instance of the amended C3: the `[click @e1, done]` batch ends
the run with `{success:true, summary:"S", turns:1}` after dispatching
exactly the click that precedes the done signal. -/
theorem done_signal_terminates_after_prior_actions_witness :
    executeLoop doneBatchClient okBrowser ⟨"m", 5, 1000⟩
        [Message.user "i"] 0 5 ⟨0, []⟩ =
      (.ok ⟨true, "S", 1⟩, ⟨1, [.click "@e1"]⟩) :=
  done_signal_terminates_after_prior_actions doneBatchClient okBrowser
    ⟨"m", 5, 1000⟩ [Message.user "i"] 0 4 ⟨0, []⟩
    [.toolUse ⟨"t1", "click", { target := some "@e1" }⟩,
     .toolUse ⟨"t2", "done", { success := some true, summary := some "S" }⟩]
    [⟨"t1", "click", { target := some "@e1" }⟩]
    ⟨"t2", "done", { success := some true, summary := some "S" }⟩ []
    true "S" rfl (by decide) (by decide) rfl rfl rfl

/-- Turn-budget exhaustion, generalized over the loop state: if the
model always answers with a non-empty batch containing no done signal,
the loop spends all its remaining fuel, makes exactly one model
invocation per unit of fuel, and fails citing the turn budget. -/
theorem executeLoop_budget_aux
    (client : List Message → Except String (List ContentBlock))
    (b : Browser) (cfg : AgentConfig)
    (H : ∀ msgs, ∃ content, client msgs = .ok content ∧
          toolUsesOf content ≠ [] ∧ ∀ u ∈ toolUsesOf content, u.name ≠ "done") :
    ∀ (fuel : Nat) (msgs : List Message) (turns : Nat) (tr : Trace),
      (executeLoop client b cfg msgs turns fuel tr).1 =
        .ok ⟨false, "Task incomplete after " ++ toString cfg.maxTurns ++ " turns",
             turns + fuel⟩ ∧
      (executeLoop client b cfg msgs turns fuel tr).2.modelCalls =
        tr.modelCalls + fuel := by
  intro fuel
  induction fuel with
  | zero => intro msgs turns tr; simp [executeLoop]
  | succ f ih =>
    intro msgs turns tr
    obtain ⟨content, hc, hne, hnd⟩ := H msgs
    simp only [executeLoop, hc]
    have he : (toolUsesOf content).isEmpty = false := by
      simp [List.isEmpty_iff, hne]
    simp only [he, Bool.false_eq_true, if_false]
    rw [processBatch_of_noDone b _ [] [] hnd]
    simp only
    constructor
    · rw [(ih _ _ _).1]
      simp only [Except.ok.injEq, AgentResult.mk.injEq, true_and, and_true,
        eq_self_iff_true]
      omega
    · rw [(ih _ _ _).2]
      show tr.modelCalls + 1 + f = tr.modelCalls + (f + 1)
      omega

/-- C4: if the model never emits a terminal signal (every turn yields a
non-empty batch with no done), `execute` makes exactly `maxTurns` model
invocations — no `(maxTurns+1)`-th call — and returns
`{success:false, turns:maxTurns}` with the budget-exhaustion summary. -/
theorem budget_exhaustion_exact_model_calls
    (client : List Message → Except String (List ContentBlock))
    (b : Browser) (cfg : AgentConfig) (instruction : String)
    (H : ∀ msgs, ∃ content, client msgs = .ok content ∧
          toolUsesOf content ≠ [] ∧ ∀ u ∈ toolUsesOf content, u.name ≠ "done") :
    (execute client b cfg instruction).1 =
      .ok ⟨false, "Task incomplete after " ++ toString cfg.maxTurns ++ " turns",
           cfg.maxTurns⟩ ∧
    (execute client b cfg instruction).2.modelCalls = cfg.maxTurns := by
  have h := executeLoop_budget_aux client b cfg H cfg.maxTurns
    [.user instruction] 0 ⟨0, []⟩
  simpa [execute] using h

/-- Closed instance of C4: a model that presses Enter forever, with a
budget of 2 turns, yields exactly 2 model invocations and the failure
result citing the budget. -/
theorem budget_exhaustion_exact_model_calls_witness :
    (execute pressClient okBrowser ⟨"m", 2, 1000⟩ "i").1 =
      .ok ⟨false, "Task incomplete after 2 turns", 2⟩ ∧
    (execute pressClient okBrowser ⟨"m", 2, 1000⟩ "i").2.modelCalls = 2 := by
  have h := budget_exhaustion_exact_model_calls pressClient okBrowser
    ⟨"m", 2, 1000⟩ "i"
    (fun _ => ⟨[.toolUse ⟨"t1", "press", { key := some "Enter" }⟩],
      rfl, by decide, by decide⟩)
  exact h

/-- C5: a model turn with no ActionRequests ends the run successfully on
that turn, with the turn's free text as summary — or the fallback
`"Completed"` when the turn carries no text (`jsOrStr` is exactly the
`textBlock?.text || 'Completed'` of the source); absence of output is
not an error. -/
theorem text_only_turn_succeeds
    (client : List Message → Except String (List ContentBlock))
    (b : Browser) (cfg : AgentConfig) (msgs : List Message)
    (turns fuel : Nat) (tr : Trace) (content : List ContentBlock)
    (hc : client msgs = .ok content)
    (hempty : toolUsesOf content = []) :
    executeLoop client b cfg msgs turns (fuel + 1) tr =
      (.ok ⟨true, jsOrStr (firstTextOf content) "Completed", turns + 1⟩,
       ⟨tr.modelCalls + 1, tr.effects⟩) := by
  simp only [executeLoop, hc]
  have he : (toolUsesOf content).isEmpty = true := by
    simp [List.isEmpty_iff, hempty]
  simp [he]

/-- Closed instance of C5: a first-turn text-only answer "All done"
yields `{success:true, summary:"All done", turns:1}`; with no text block
at all the summary falls back to `"Completed"`. -/
theorem text_only_turn_succeeds_witness :
    executeLoop textClient okBrowser ⟨"m", 3, 1000⟩
        [Message.user "go"] 0 3 ⟨0, []⟩ =
      (.ok ⟨true, "All done", 1⟩, ⟨1, []⟩) := by
  have h := text_only_turn_succeeds textClient okBrowser ⟨"m", 3, 1000⟩
    [Message.user "go"] 0 2 ⟨0, []⟩ [.text "All done"] rfl rfl
  exact h

/-- The stream counts one turn per assistant message. -/
theorem sdkAssistantCount_cons_assistant (content : List SdkBlock)
    (rest : List SdkMessage) :
    sdkAssistantCount (.assistant content :: rest) = sdkAssistantCount rest + 1 := by
  simp [sdkAssistantCount, List.filter]

/-- Non-assistant, non-result messages do not advance the turn counter. -/
theorem sdkAssistantCount_cons_other (rest : List SdkMessage) :
    sdkAssistantCount (.other :: rest) = sdkAssistantCount rest := by
  simp [sdkAssistantCount, List.filter]

/-- If the stream throws after its listed messages and none of them is a
result message, the stream loop reaches the `catch` with the turn count
of the assistant messages seen. -/
theorem runStream_no_result_throws (err : String) :
    ∀ (stream : List SdkMessage) (turns : Nat) (lastMsg : String),
      (∀ m ∈ stream, isResultMsg m = false) →
      runStream (some err) stream turns lastMsg =
        ⟨false, "Error: " ++ err, turns + sdkAssistantCount stream⟩ := by
  intro stream
  induction stream with
  | nil =>
    intro turns lastMsg _
    simp [runStream, sdkAssistantCount]
  | cons m rest ih =>
    intro turns lastMsg h
    have hm := h m (by simp)
    have hrest : ∀ x ∈ rest, isResultMsg x = false := fun x hx => h x (by simp [hx])
    cases m with
    | assistant content =>
      simp only [runStream]
      rw [ih _ _ hrest, sdkAssistantCount_cons_assistant]
      simp only [AgentResult.mk.injEq, eq_self_iff_true, true_and]
      omega
    | result st res n es => simp [isResultMsg] at hm
    | other =>
      simp only [runStream]
      rw [ih _ _ hrest, sdkAssistantCount_cons_other]

/-- C6: when the model-invocation service fails (the stream throws with
message `err` before any result message), `execute` of
`src/browser-agent.ts` does not propagate the throw: its single
`try`/`catch` converts it into `{success:false, summary:"Error: <err>"}`
in one pass, with no retry (in the embedding, `sdkExecute` is a total
function of one traversal of the stream). -/
theorem sdk_execute_catches_model_errors
    (stream : List SdkMessage) (err : String) (instruction : String)
    (h : ∀ m ∈ stream, isResultMsg m = false) :
    sdkExecute stream (some err) instruction =
      ⟨false, "Error: " ++ err, sdkAssistantCount stream⟩ := by
  have h0 := runStream_no_result_throws err stream 0 "" h
  simpa [sdkExecute] using h0

/-- Closed instance of C6: one assistant turn followed by a
rate-limit throw yields `{success:false, summary:"Error: rate limited",
turns:1}`. -/
theorem sdk_execute_catches_model_errors_witness :
    sdkExecute [.assistant [.text "working on it"]] (some "rate limited") "i" =
      ⟨false, "Error: rate limited", 1⟩ := by
  have h := sdk_execute_catches_model_errors
    [.assistant [.text "working on it"]] "rate limited" "i" (by decide)
  exact h

/-- Counterexample to C7 as stated: calling `execute` itself with the
empty instruction does not fail fast with a configuration error — the
run proceeds, the model is invoked (`modelCalls = 1 ≠ 0`) and a normal
success result is produced.  No instruction validation exists inside
`execute`. -/
theorem execute_empty_instruction_invokes_model_cex :
    execute textClient okBrowser ⟨"m", 1, 1000⟩ "" =
      (.ok ⟨true, "All done", 1⟩, ⟨1, []⟩) ∧
    (1 : Nat) ≠ 0 :=
  ⟨rfl, by decide⟩

/-- C7 amended: the missing/empty-instruction check lives in the
daemon's `do` command handler, not in `execute`: `handleDo` rejects a
missing or empty instruction with `{success:false,
error:"Missing instruction"}` synchronously, before constructing the
agent — zero model invocations and zero browser effects. -/
theorem handle_do_rejects_missing_instruction
    (client : List Message → Except String (List ContentBlock))
    (b : Browser) (cfg : AgentConfig) (cmd : DoCommand)
    (h : cmd.instruction = none ∨ cmd.instruction = some "") :
    handleDo client b cmd cfg =
      (⟨false, some "Missing instruction", none⟩, ⟨0, []⟩) := by
  rcases h with h | h <;> simp [handleDo, h]

/-- Closed instance of the amended C7 at the empty instruction. -/
theorem handle_do_rejects_missing_instruction_witness :
    handleDo textClient okBrowser ⟨some ""⟩ ⟨"m", 3, 1000⟩ =
      (⟨false, some "Missing instruction", none⟩, ⟨0, []⟩) :=
  handle_do_rejects_missing_instruction textClient okBrowser ⟨"m", 3, 1000⟩
    ⟨some ""⟩ (Or.inr rfl)

/-- Counterexample to C8 as stated: for the scroll request
`{direction:"up", amount:0}` the claimed delta `(0, -amount) = (0, 0)`
and a confirmation naming amount 0 do not occur — the handler scrolls by
`(0, -500)` and reports `"Scrolled up 500px"`, because the amount is
tested for truthiness. -/
theorem scroll_zero_amount_cex :
    scrollHandler "up" (some 0) = ((0, -500), "Scrolled up 500px") ∧
    (scrollHandler "up" (some 0)).1 ≠ (0, -(0 : Int)) ∧
    (scrollHandler "up" (some 0)).2 ≠ "Scrolled up 0px" :=
  ⟨rfl, by decide, by decide⟩

/-- C8 amended: with the effective amount `a = amount || 500` (the given
amount when present and non-zero, else the default 500), the scroll
handler derives the signed delta from the direction — up `(0,-a)`, down
`(0,a)`, left `(-a,0)`, right `(a,0)` — and reports
`"Scrolled <direction> <a>px"`. -/
theorem scroll_dispatch_with_truthy_default (direction : String)
    (amount : Option Int) :
    ((direction = "up" →
        (scrollHandler direction amount).1 = (0, -(jsOrInt amount 500))) ∧
     (direction = "down" →
        (scrollHandler direction amount).1 = (0, jsOrInt amount 500)) ∧
     (direction = "left" →
        (scrollHandler direction amount).1 = (-(jsOrInt amount 500), 0)) ∧
     (direction = "right" →
        (scrollHandler direction amount).1 = (jsOrInt amount 500, 0))) ∧
    (scrollHandler direction amount).2 =
      "Scrolled " ++ direction ++ " " ++ toString (jsOrInt amount 500) ++ "px" := by
  refine ⟨⟨?_, ?_, ?_, ?_⟩, rfl⟩ <;> intro h <;> subst h <;>
    simp [scrollHandler, scrollDeltas]

/-- Closed instance of the amended C8: scrolling down by an explicit 7
pixels moves by `(0, 7)` and reports `"Scrolled down 7px"`. -/
theorem scroll_dispatch_with_truthy_default_witness :
    (scrollHandler "down" (some 7)).1 = (0, 7) ∧
    (scrollHandler "down" (some 7)).2 = "Scrolled down 7px" := by
  have h := scroll_dispatch_with_truthy_default "down" (some 7)
  exact ⟨h.1.2.1 rfl, by rw [h.2]; rfl⟩

/-- C9: dispatching the same snapshot request (same `fullPage` argument)
twice against an unchanged page yields textually identical Observations:
the dispatcher's output depends only on the page and the `fullPage`
argument, and snapshot dispatch does not mutate the session. -/
theorem snapshot_dispatch_deterministic
    (b : Browser) (args1 args2 : ToolArgs)
    (h : args1.fullPage = args2.fullPage) :
    executeTool b "snapshot" args1 = executeTool b "snapshot" args2 := by
  simp [executeTool, executeToolBody, h]

/-- Closed instance of C9: two snapshot requests with `fullPage := false`
(one carrying an unrelated stray argument) produce identical trees. -/
theorem snapshot_dispatch_deterministic_witness :
    executeTool okBrowser "snapshot"
        { fullPage := some false, target := some "@stray" } =
      executeTool okBrowser "snapshot" { fullPage := some false } :=
  snapshot_dispatch_deterministic okBrowser
    { fullPage := some false, target := some "@stray" }
    { fullPage := some false } rfl

/-- C10: a scroll request whose amount is explicitly 0 is not honored:
`args.amount || 500` treats 0 as absent, so the handler behaves exactly
as with no amount, scrolls by the default 500 and reports
`"Scrolled <direction> 500px"`; likewise the plan's `executeTool` calls
the browser with amount 500 and reports 500px. -/
theorem scroll_zero_amount_uses_default
    (b : Browser) (direction : String)
    (hb : b.scroll direction 500 = .ok ()) :
    scrollHandler direction (some 0) = scrollHandler direction none ∧
    (scrollHandler direction (some 0)).2 =
      "Scrolled " ++ direction ++ " " ++ "500" ++ "px" ∧
    executeTool b "scroll" { direction := some direction, amount := some 0 } =
      ("Scrolled " ++ direction ++ " " ++ "500" ++ "px",
       [.scroll direction 500]) := by
  refine ⟨rfl, rfl, ?_⟩
  simp [executeTool, executeToolBody, hb, jsOrInt, Except.map]
  rfl

/-- Closed instance of C10 at direction `"down"` against a live session. -/
theorem scroll_zero_amount_uses_default_witness :
    scrollHandler "down" (some 0) = scrollHandler "down" none ∧
    (scrollHandler "down" (some 0)).2 = "Scrolled " ++ "down" ++ " " ++ "500" ++ "px" ∧
    executeTool okBrowser "scroll" { direction := some "down", amount := some 0 } =
      ("Scrolled " ++ "down" ++ " " ++ "500" ++ "px", [.scroll "down" 500]) :=
  scroll_zero_amount_uses_default okBrowser "down" rfl
